import Mathlib

/-
Verification of the procedural-generation and grid-spatial core of the
DOOM_ProceduralEngine repository (src/main.cpp, src/main_doom_fixed.cpp,
src/main_complete.cpp, src/main_reference.cpp).

The C++ code is shallowly embedded: `double` becomes `ℚ`, C++ `int` becomes
`ℤ` (or `ℕ` for loop indices that are provably non-negative), and the
`std::vector<std::vector<TileType>>` grids become either `List (List TileType)`
(where the code mutates them) or total functions `ℤ → ℤ → TileType` (where the
code only reads them through bounds-guarded lookups).  Random draws from the
`std::mt19937` generators are abstracted as an explicit candidate stream
`ℕ → _` handed to the embedded function, and unbounded `while(true)` loops are
embedded with an explicit fuel argument so that (non)termination is observable.
-/

namespace Overworld

/-- TileType enumeration of src/main.cpp (top-down overworld variant). -/
inductive TileType where
  | Grass
  | Trees
  | Water
deriving DecidableEq

/-- Grid of src/main.cpp: `std::vector<std::vector<TileType>>`, row-major,
addressed `grid[y][x]`. -/
abbrev Grid := List (List TileType)

/-- Lookup `grid[y][x]`.  Every read in main.cpp is bounds-guarded, so the
default value (Trees) is never observable through the embedded functions. -/
def gridAt (g : Grid) (y x : ℕ) : TileType :=
  (g.getD y []).getD x TileType.Trees

/-- Offsets `(dy, dx)` enumerated by the double loop of countTreeNeighbors
(main.cpp lines 490-497): `ny` from `y-1` to `y+1` outer, `nx` inner, with the
center `(0,0)` skipped by the `continue`. -/
def neighborOffsets : List (ℤ × ℤ) :=
  [(-1, -1), (-1, 0), (-1, 1), (0, -1), (0, 1), (1, -1), (1, 0), (1, 1)]

/-- Body of the condition at main.cpp line 493: a surrounding position counts
when it is out of bounds or holds Trees. -/
def neighborSolid (width height : ℤ) (g : Grid) (nx ny : ℤ) : Bool :=
  decide (nx < 0 ∨ width ≤ nx ∨ ny < 0 ∨ height ≤ ny ∨
    gridAt g ny.toNat nx.toNat = TileType.Trees)

/-- countTreeNeighbors from main.cpp lines 488-499: count, among the 8
surrounding positions of `(x, y)`, those that are out of bounds or Trees. -/
def countTreeNeighbors (x y width height : ℤ) (g : Grid) : ℕ :=
  (neighborOffsets.filter
    (fun d => neighborSolid width height g (x + d.2) (y + d.1))).length

/-- Write `g[y][x] := t` (mutation of `nextGrid[y][x]` in main.cpp). -/
def setCell (g : Grid) (y x : ℕ) (t : TileType) : Grid :=
  g.set y ((g.getD y []).set x t)

/-- Body of the smoothing double loop, main.cpp lines 464-468: the neighbor
count is taken from the frozen grid `g` of the previous pass, while writes go
to the accumulator `acc` (the `nextGrid` copy). -/
def smoothCell (g : Grid) (width height : ℕ) (acc : Grid) (y x : ℕ) : Grid :=
  let n := countTreeNeighbors (x : ℤ) (y : ℤ) (width : ℤ) (height : ℤ) g
  if 4 < n then setCell acc y x TileType.Trees
  else if n < 4 then setCell acc y x TileType.Grass
  else acc

/-- One smoothing pass of generateWorld, main.cpp lines 461-470:
`nextGrid = grid` followed by the double loop over all cells, reading counts
from `grid` and writing into `nextGrid`. -/
def smoothPass (width height : ℕ) (g : Grid) : Grid :=
  (List.range height).foldl
    (fun acc y => (List.range width).foldl
      (fun acc2 x => smoothCell g width height acc2 y x) acc) g

/-- Well-formedness of a grid: `height` rows of `width` cells each, as
produced by `grid.assign(worldHeight, std::vector<TileType>(worldWidth, ...))`
in generateWorld. -/
def wellFormed (width height : ℕ) (g : Grid) : Prop :=
  g.length = height ∧ ∀ row ∈ g, row.length = width

/-- Coordinate wrap of main.cpp lines 277-278 and 372-373:
`((coord % size) + size) % size` with the C++ truncated signed `%`
(`Int.tmod`). -/
def wrapped (coord size : ℤ) : ℤ :=
  ((coord.tmod size) + size).tmod size

/-- findValidSpawn from main.cpp lines 413-422, with the `std::mt19937` draws
abstracted as the candidate stream `cand` (the loop samples `cand i` at its
`i`-th iteration) and the unbounded `while(true)` loop given explicit fuel:
the C++ call terminates exactly when some fuel makes this return `some`.
On a Grass cell it returns the world-unit cell center
`(x * tileSize + tileSize / 2, y * tileSize + tileSize / 2)`. -/
def findValidSpawnAux (tileSize : ℚ) (g : Grid) (cand : ℕ → ℕ × ℕ) :
    ℕ → ℕ → Option (ℚ × ℚ)
  | _, 0 => none
  | i, fuel + 1 =>
    if gridAt g (cand i).2 (cand i).1 = TileType.Grass then
      some (((cand i).1 : ℚ) * tileSize + tileSize / 2,
            ((cand i).2 : ℚ) * tileSize + tileSize / 2)
    else findValidSpawnAux tileSize g cand (i + 1) fuel

end Overworld

namespace Doom

/-- TileType enumeration of src/main_doom_fixed.cpp (raycaster variant). -/
inductive TileType where
  | Empty
  | Wall
deriving DecidableEq

/-- Map of the raycaster variant, read as `map[y][x]`.  All reads in the C++
are bounds-guarded, so a total function over `ℤ` coordinates is an adequate
embedding of the 64x64 `std::vector<std::vector<TileType>>`. -/
abbrev GameMap := ℤ → ℤ → TileType

/-- MAP_WIDTH constant (main_doom_fixed.cpp line 17). -/
def MAP_WIDTH : ℤ := 64

/-- MAP_HEIGHT constant (main_doom_fixed.cpp line 18). -/
def MAP_HEIGHT : ℤ := 64

/-- PLAYER_RADIUS constant 0.3 (main_doom_fixed.cpp line 24). -/
def PLAYER_RADIUS : ℚ := 3 / 10

/-- Conversion `static_cast<int>(q)` of a C++ `double`: truncation toward
zero. -/
def cTrunc (q : ℚ) : ℤ :=
  if q < 0 then ⌈q⌉ else ⌊q⌋

/-- Body of the corner loop of checkCollision (main_doom_fixed.cpp lines
95-106): one corner point is blocked when its cell coordinates are out of
bounds or the cell is a Wall. -/
def cornerBlocked (m : GameMap) (cx cy : ℚ) : Bool :=
  decide (cTrunc cx < 0 ∨ MAP_WIDTH ≤ cTrunc cx ∨
          cTrunc cy < 0 ∨ MAP_HEIGHT ≤ cTrunc cy ∨
          m (cTrunc cy) (cTrunc cx) = TileType.Wall)

/-- Corner points in the order built at main_doom_fixed.cpp lines 88-93. -/
def cornerPoints (x y radius : ℚ) : List (ℚ × ℚ) :=
  [(x - radius, y - radius), (x + radius, y - radius),
   (x - radius, y + radius), (x + radius, y + radius)]

/-- checkCollision from main_doom_fixed.cpp lines 85-109 (identical in
main_complete.cpp): true when any of the 4 corners of the bounding square is
blocked. -/
def checkCollision (m : GameMap) (x y radius : ℚ) : Bool :=
  cornerBlocked m (x - radius) (y - radius) ||
  cornerBlocked m (x + radius) (y - radius) ||
  cornerBlocked m (x - radius) (y + radius) ||
  cornerBlocked m (x + radius) (y + radius)

/-- tryMoveWithSlide from main_doom_fixed.cpp lines 111-135 (identical in
main_complete.cpp lines 139-157), returning the updated `(posX, posY)`:
full move first, then X-only, then Y-only, else no move. -/
def tryMoveWithSlide (m : GameMap) (posX posY targetX targetY : ℚ) : ℚ × ℚ :=
  if checkCollision m targetX targetY PLAYER_RADIUS = false then
    (targetX, targetY)
  else if checkCollision m targetX posY PLAYER_RADIUS = false then
    (targetX, posY)
  else if checkCollision m posX targetY PLAYER_RADIUS = false then
    (posX, targetY)
  else
    (posX, posY)

/-- findEmptySpot from main_doom_fixed.cpp lines 293-304, with the RNG draws
abstracted as the candidate stream `cand`; the first argument of the
recursion is the index of the next draw, the second the remaining attempts. -/
def findEmptySpotAux (m : GameMap) (cand : ℕ → ℤ × ℤ) : ℕ → ℕ → Bool
  | _, 0 => false
  | i, n + 1 =>
    if m (cand i).2 (cand i).1 = TileType.Empty then true
    else findEmptySpotAux m cand (i + 1) n

/-- findEmptySpot runs exactly 100 attempts (the `attempts < 100` loop
bound). -/
def findEmptySpot (m : GameMap) (cand : ℕ → ℤ × ℤ) : Bool :=
  findEmptySpotAux m cand 0 100

/-- Room rectangle `{x, y, w, h}` of the dungeon generators; the carved cells
are `[x, x+w) × [y, y+h)`. -/
structure Room where
  x : ℤ
  y : ℤ
  w : ℤ
  h : ℤ
deriving DecidableEq

/-- Overlap test of generateDungeon in main_doom_fixed.cpp lines 242-248:
candidate `c` overlaps placed `room` unless one of the four strict
separations holds. -/
def roomOverlapChk (room c : Room) : Bool :=
  !(decide (c.x + c.w < room.x ∨ room.x + room.w < c.x ∨
            c.y + c.h < room.y ∨ room.y + room.h < c.y))

/-- Overlap test of generateDungeon in main_complete.cpp lines 263-269, with
the bounding boxes inflated by 1. -/
def roomOverlapChkInflated (room c : Room) : Bool :=
  !(decide (c.x + c.w + 1 < room.x ∨ room.x + room.w + 1 < c.x ∨
            c.y + c.h + 1 < room.y ∨ room.y + room.h + 1 < c.y))

/-- Room-placement loop shared by main_doom_fixed.cpp (lines 234-262) and
main_complete.cpp (lines 256-281), parameterized by the overlap test: each
candidate is accepted only when it overlaps no previously placed room, and
no further room is accepted once `numRooms` rooms are placed (the C++ breaks
out of the loop at that point; rejecting the remaining candidates yields the
same list). -/
def placeRoomsWith (ovl : Room → Room → Bool) (numRooms : ℕ)
    (cands : List Room) : List Room :=
  cands.foldl
    (fun rooms c =>
      if numRooms ≤ rooms.length then rooms
      else if rooms.any (fun room => ovl room c) then rooms
      else rooms ++ [c]) []

/-- Room placement of main_doom_fixed.cpp. -/
def placeRooms : ℕ → List Room → List Room :=
  placeRoomsWith roomOverlapChk

/-- Room placement of main_complete.cpp. -/
def placeRoomsComplete : ℕ → List Room → List Room :=
  placeRoomsWith roomOverlapChkInflated

/-- Room placement of generateDungeon in main_reference.cpp lines 678-692:
every candidate is pushed unconditionally, with no overlap check at all. -/
def placeRoomsReference (cands : List Room) : List Room :=
  cands.foldl (fun rooms c => rooms ++ [c]) []

/-- Cell `(p.1, p.2)` lies in the rectangle carved for room `r`
(`for ry in [y, y+h) for rx in [x, x+w)`). -/
def roomCells (r : Room) (p : ℤ × ℤ) : Prop :=
  r.x ≤ p.1 ∧ p.1 < r.x + r.w ∧ r.y ≤ p.2 ∧ p.2 < r.y + r.h

instance (r : Room) (p : ℤ × ℤ) : Decidable (roomCells r p) := by
  unfold roomCells; infer_instance

/-- Two rooms are non-overlapping when no cell lies in both carved
rectangles. -/
def roomsDisjoint (a b : Room) : Prop :=
  ∀ p : ℤ × ℤ, ¬(roomCells a p ∧ roomCells b p)

/-- Per-ray constants of the DDA of renderRaycaster (main_doom_fixed.cpp
lines 342-362): the two delta distances and the two step directions. -/
structure RaySetup where
  deltaDistX : ℚ
  deltaDistY : ℚ
  stepX : ℤ
  stepY : ℤ
deriving DecidableEq

/-- Mutable state of the DDA loop: accumulated side distances, current cell,
and the axis of the last step. -/
structure DDAState where
  sideDistX : ℚ
  sideDistY : ℚ
  mapX : ℤ
  mapY : ℤ
  side : ℤ
deriving DecidableEq

/-- Sentinel 1e30 used for the delta distance of a zero ray-direction
component (main_doom_fixed.cpp lines 342-343). -/
def bigSentinel : ℚ := 10 ^ 30

/-- deltaDist and step initialization, main_doom_fixed.cpp lines 342-362. -/
def mkRaySetup (rayDirX rayDirY : ℚ) : RaySetup :=
  { deltaDistX := if rayDirX = 0 then bigSentinel else |1 / rayDirX|
    deltaDistY := if rayDirY = 0 then bigSentinel else |1 / rayDirY|
    stepX := if rayDirX < 0 then -1 else 1
    stepY := if rayDirY < 0 then -1 else 1 }

/-- Initial DDA state for one ray, main_doom_fixed.cpp lines 339-362:
`mapX = (int)posX`, `mapY = (int)posY`, side distances to the first grid
lines.  The C++ declares `int side = 0` before the loop. -/
def mkRayInit (posX posY rayDirX rayDirY : ℚ) : DDAState :=
  let r := mkRaySetup rayDirX rayDirY
  let mapX := cTrunc posX
  let mapY := cTrunc posY
  { sideDistX :=
      if rayDirX < 0 then (posX - mapX) * r.deltaDistX
      else (mapX + 1 - posX) * r.deltaDistX
    sideDistY :=
      if rayDirY < 0 then (posY - mapY) * r.deltaDistY
      else (mapY + 1 - posY) * r.deltaDistY
    mapX := mapX
    mapY := mapY
    side := 0 }

/-- One iteration of the DDA loop body, main_doom_fixed.cpp lines 368-376:
step along whichever axis has the smaller accumulated side distance. -/
def ddaStep (r : RaySetup) (s : DDAState) : DDAState :=
  if s.sideDistX < s.sideDistY then
    { s with sideDistX := s.sideDistX + r.deltaDistX
             mapX := s.mapX + r.stepX
             side := 0 }
  else
    { s with sideDistY := s.sideDistY + r.deltaDistY
             mapY := s.mapY + r.stepY
             side := 1 }

/-- Stop condition checked after each step, main_doom_fixed.cpp lines
378-382: the stepped-into cell is out of bounds or a Wall. -/
def ddaStopped (m : GameMap) (s : DDAState) : Bool :=
  decide (s.mapX < 0 ∨ MAP_WIDTH ≤ s.mapX ∨ s.mapY < 0 ∨ MAP_HEIGHT ≤ s.mapY ∨
          m s.mapY s.mapX = TileType.Wall)

/-- The `while (!hit)` DDA loop with explicit fuel: step, then return as soon
as the stop condition holds.  The C++ loop terminates exactly when some fuel
makes the result stopped. -/
def ddaRun (m : GameMap) (r : RaySetup) : ℕ → DDAState → DDAState
  | 0, s => s
  | fuel + 1, s =>
    let s2 := ddaStep r s
    if ddaStopped m s2 then s2 else ddaRun m r fuel s2

/-- Number of steps a coordinate moving by `step` per step can still take
before leaving `[0, bound)` for good (termination measure only, not part of
the C++ code). -/
def axisDist (bound coord step : ℤ) : ℕ :=
  (if step = 1 then bound - coord else coord + 1).toNat

/-- Termination measure for the DDA loop. -/
def ddaMeasure (r : RaySetup) (s : DDAState) : ℕ :=
  axisDist MAP_WIDTH s.mapX r.stepX + axisDist MAP_HEIGHT s.mapY r.stepY

/-- Perpendicular-distance formula of main_doom_fixed.cpp lines 387-391,
side 0 form: `(mapX - posX + (1 - stepX) / 2) / rayDirX`. -/
def perpFormulaX (posX rayDirX : ℚ) (r : RaySetup) (s : DDAState) : ℚ :=
  ((s.mapX : ℚ) - posX + ((1 : ℚ) - (r.stepX : ℚ)) / 2) / rayDirX

/-- Perpendicular-distance formula of main_doom_fixed.cpp lines 387-391,
side 1 form. -/
def perpFormulaY (posY rayDirY : ℚ) (r : RaySetup) (s : DDAState) : ℚ :=
  ((s.mapY : ℚ) - posY + ((1 : ℚ) - (r.stepY : ℚ)) / 2) / rayDirY

end Doom

/-! Helper lemmas shared by several claims. -/

/-- Lower bound for the C++ truncated remainder: for a positive modulus the
remainder is strictly greater than `-b`. -/
theorem tmod_gt_neg (a : ℤ) {b : ℤ} (hb : 0 < b) : -b < a.tmod b := by
  rcases a with m | m
  · exact lt_of_lt_of_le (by omega) (Int.tmod_nonneg b (Int.ofNat_nonneg m))
  · rcases b with n | n
    · have hn : 0 < n := by
        have hb2 : (0 : ℤ) < (n : ℤ) := hb
        exact_mod_cast hb2
      have hred : (Int.negSucc m).tmod (Int.ofNat n) = -(((m + 1) % n : ℕ) : ℤ) := rfl
      have hlt : (m + 1) % n < n := Nat.mod_lt _ hn
      rw [hred]
      show -(n : ℤ) < -(((m + 1) % n : ℕ) : ℤ)
      have hcast : (((m + 1) % n : ℕ) : ℤ) < (n : ℤ) := by exact_mod_cast hlt
      omega
    · exact absurd hb (Int.negSucc_lt_zero n).asymm

/-- The double-truncated-mod wrap computes the Euclidean remainder. -/
theorem wrapped_eq_emod (c s : ℤ) (hs : 0 < s) : Overworld.wrapped c s = c % s := by
  unfold Overworld.wrapped
  have h1 : -s < c.tmod s := tmod_gt_neg c hs
  have h2 : (0 : ℤ) ≤ c.tmod s + s := by omega
  rw [Int.tmod_eq_emod h2 (le_of_lt hs), Int.tmod_def]
  have h3 : c - s * c.tdiv s + s = c + s * (1 - c.tdiv s) := by ring
  rw [h3, Int.add_mul_emod_self_left]

/-- C6: for every integer coordinate `c` and positive `size`, the wrap
`((c % size) + size) % size` computed with the C++ truncated remainder lands
in `[0, size)`, and wrapping `c + size` equals wrapping `c`. -/
theorem wrapped_range_and_period (c size : ℤ) (hs : 0 < size) :
    0 ≤ Overworld.wrapped c size ∧ Overworld.wrapped c size < size ∧
    Overworld.wrapped (c + size) size = Overworld.wrapped c size := by
  rw [wrapped_eq_emod c size hs, wrapped_eq_emod (c + size) size hs]
  exact ⟨Int.emod_nonneg c (by omega), Int.emod_lt_of_pos c hs, Int.add_mul_emod_self_left c size 1 ▸ by rw [mul_one]⟩

/-- Witness for C6 at `c = -7`, `size = 3`. -/
theorem wrapped_range_and_period_witness :
    0 ≤ Overworld.wrapped (-7) 3 ∧ Overworld.wrapped (-7) 3 < 3 ∧
    Overworld.wrapped (-7 + 3) 3 = Overworld.wrapped (-7) 3 :=
  wrapped_range_and_period (-7) 3 (by decide)

/-- C2: tryMoveWithSlide resolves the move in the fixed order full move,
X-only slide, Y-only slide, no move, using collision checks at radius
PLAYER_RADIUS = 0.3. -/
theorem tryMoveWithSlide_resolution (m : Doom.GameMap) (posX posY targetX targetY : ℚ) :
    (Doom.checkCollision m targetX targetY Doom.PLAYER_RADIUS = false →
      Doom.tryMoveWithSlide m posX posY targetX targetY = (targetX, targetY)) ∧
    (Doom.checkCollision m targetX targetY Doom.PLAYER_RADIUS = true →
      Doom.checkCollision m targetX posY Doom.PLAYER_RADIUS = false →
      Doom.tryMoveWithSlide m posX posY targetX targetY = (targetX, posY)) ∧
    (Doom.checkCollision m targetX targetY Doom.PLAYER_RADIUS = true →
      Doom.checkCollision m targetX posY Doom.PLAYER_RADIUS = true →
      Doom.checkCollision m posX targetY Doom.PLAYER_RADIUS = false →
      Doom.tryMoveWithSlide m posX posY targetX targetY = (posX, targetY)) ∧
    (Doom.checkCollision m targetX targetY Doom.PLAYER_RADIUS = true →
      Doom.checkCollision m targetX posY Doom.PLAYER_RADIUS = true →
      Doom.checkCollision m posX targetY Doom.PLAYER_RADIUS = true →
      Doom.tryMoveWithSlide m posX posY targetX targetY = (posX, posY)) := by
  unfold Doom.tryMoveWithSlide
  exact ⟨fun h1 => by simp [h1], fun h1 h2 => by simp [h1, h2],
    fun h1 h2 h3 => by simp [h1, h2, h3], fun h1 h2 h3 => by simp [h1, h2, h3]⟩

/-- Witness for C2 on the all-Empty map: the full move from (1,1) to (2,2)
is collision-free and is taken. -/
theorem tryMoveWithSlide_resolution_witness :
    Doom.tryMoveWithSlide (fun _ _ => Doom.TileType.Empty) 1 1 2 2 = (2, 2) :=
  (tryMoveWithSlide_resolution (fun _ _ => Doom.TileType.Empty) 1 1 2 2).1 (by
    norm_num [Doom.checkCollision, Doom.cornerBlocked, Doom.cTrunc,
      Doom.PLAYER_RADIUS, Doom.MAP_WIDTH, Doom.MAP_HEIGHT]
    decide)

/-- C10: tryMoveWithSlide preserves the collision-free invariant of the
player position. -/
theorem tryMoveWithSlide_keeps_free (m : Doom.GameMap) (posX posY targetX targetY : ℚ)
    (h : Doom.checkCollision m posX posY Doom.PLAYER_RADIUS = false) :
    Doom.checkCollision m (Doom.tryMoveWithSlide m posX posY targetX targetY).1
      (Doom.tryMoveWithSlide m posX posY targetX targetY).2 Doom.PLAYER_RADIUS = false := by
  unfold Doom.tryMoveWithSlide
  split
  · simpa using ‹_›
  · split
    · simpa using ‹_›
    · split
      · simpa using ‹_›
      · simpa using h

/-- Witness for C10 on the all-Empty map from the collision-free position
(1,1). -/
theorem tryMoveWithSlide_keeps_free_witness :
    Doom.checkCollision (fun _ _ => Doom.TileType.Empty)
      (Doom.tryMoveWithSlide (fun _ _ => Doom.TileType.Empty) 1 1 2 2).1
      (Doom.tryMoveWithSlide (fun _ _ => Doom.TileType.Empty) 1 1 2 2).2
      Doom.PLAYER_RADIUS = false :=
  tryMoveWithSlide_keeps_free (fun _ _ => Doom.TileType.Empty) 1 1 2 2 (by
    norm_num [Doom.checkCollision, Doom.cornerBlocked, Doom.cTrunc,
      Doom.PLAYER_RADIUS, Doom.MAP_WIDTH, Doom.MAP_HEIGHT]
    decide)

/-- Characterization of the bounded spawn search: it returns false exactly
when none of its `n` sampled cells (draws `i, i+1, ..., i+n-1`) is Empty. -/
theorem findEmptySpotAux_false_iff (m : Doom.GameMap) (cand : ℕ → ℤ × ℤ) :
    ∀ (n i : ℕ), (Doom.findEmptySpotAux m cand i n = false ↔
      ∀ j < n, m (cand (i + j)).2 (cand (i + j)).1 ≠ Doom.TileType.Empty) := by
  intro n
  induction n with
  | zero => intro i; simp [Doom.findEmptySpotAux]
  | succ n ih =>
    intro i
    unfold Doom.findEmptySpotAux
    split
    · rename_i hemp
      simp only [Bool.true_eq_false, false_iff]
      intro hall
      exact hall 0 (Nat.succ_pos n) (by simpa using hemp)
    · rename_i hne
      rw [ih (i + 1)]
      constructor
      · intro h j hj
        match j with
        | 0 => simpa using hne
        | k + 1 =>
          have hidx : i + 1 + k = i + (k + 1) := by omega
          have := h k (by omega)
          rwa [hidx] at this
      · intro h j hj
        have hidx : i + 1 + j = i + (j + 1) := by omega
        rw [hidx]
        exact h (j + 1) (by omega)

/-- C7: the unbounded rejection-sampling spawn search of main.cpp returns for
no amount of fuel when the grid has no Grass cell (the `while(true)` loop
never terminates), while the bounded findEmptySpot of main_doom_fixed.cpp is
a total function over its 100 attempts and returns false exactly when none
of the 100 sampled cells is Empty. -/
theorem spawn_search_termination (tileSize : ℚ) (g : Overworld.Grid)
    (width height : ℕ) (cand : ℕ → ℕ × ℕ) (m : Doom.GameMap)
    (cand2 : ℕ → ℤ × ℤ) :
    ((∀ x y, x < width → y < height →
        Overworld.gridAt g y x ≠ Overworld.TileType.Grass) →
      (∀ i, (cand i).1 < width ∧ (cand i).2 < height) →
      ∀ i fuel, Overworld.findValidSpawnAux tileSize g cand i fuel = none) ∧
    (Doom.findEmptySpot m cand2 = false ↔
      ∀ j < 100, m (cand2 j).2 (cand2 j).1 ≠ Doom.TileType.Empty) := by
  constructor
  · intro hno hcand i fuel
    induction fuel generalizing i with
    | zero => rfl
    | succ fuel ih =>
      unfold Overworld.findValidSpawnAux
      rw [if_neg (hno (cand i).1 (cand i).2 (hcand i).1 (hcand i).2)]
      exact ih (i + 1)
  · have h := findEmptySpotAux_false_iff m cand2 100 0
    simpa [Doom.findEmptySpot] using h

/-- Witness for C7: a 1x1 all-Trees grid starves the unbounded search (shown
at fuel 5), and the bounded search fails on the all-Wall map. -/
theorem spawn_search_termination_witness :
    Overworld.findValidSpawnAux 16 [[Overworld.TileType.Trees]]
      (fun _ => (0, 0)) 0 5 = none ∧
    Doom.findEmptySpot (fun _ _ => Doom.TileType.Wall) (fun _ => (3, 3)) = false := by
  constructor
  · exact (spawn_search_termination 16 [[Overworld.TileType.Trees]] 1 1
      (fun _ => (0, 0)) (fun _ _ => Doom.TileType.Wall) (fun _ => (3, 3))).1
      (by
        intro x y hx hy
        obtain rfl : x = 0 := by omega
        obtain rfl : y = 0 := by omega
        decide)
      (fun _ => ⟨Nat.zero_lt_one, Nat.zero_lt_one⟩) 0 5
  · exact (spawn_search_termination 16 [[Overworld.TileType.Trees]] 1 1
      (fun _ => (0, 0)) (fun _ _ => Doom.TileType.Wall) (fun _ => (3, 3))).2.mpr
      (fun _ _ => by decide)

/-- Soundness of the rejection-sampling spawn: any returned point is the
world-unit center of a Grass cell. -/
theorem findValidSpawnAux_some_center (tileSize : ℚ) (g : Overworld.Grid)
    (cand : ℕ → ℕ × ℕ) :
    ∀ (fuel i : ℕ) (p : ℚ × ℚ),
      Overworld.findValidSpawnAux tileSize g cand i fuel = some p →
      ∃ x y, Overworld.gridAt g y x = Overworld.TileType.Grass ∧
        p = ((x : ℚ) * tileSize + tileSize / 2,
             (y : ℚ) * tileSize + tileSize / 2) := by
  intro fuel
  induction fuel with
  | zero => intro i p h; cases h
  | succ fuel ih =>
    intro i p h
    unfold Overworld.findValidSpawnAux at h
    split at h
    · rename_i hg
      exact ⟨(cand i).1, (cand i).2, hg, (Option.some_inj.mp h).symm⟩
    · exact ih (i + 1) p h

/-- C8: whenever findValidSpawn returns, the result is the cell center
`(x * tileSize + tileSize/2, y * tileSize + tileSize/2)` of a Grass cell,
and on any grid whose only Grass cell is (3,3), with tile size 16, every
returned value is (56, 56) regardless of the random draws. -/
theorem findValidSpawn_center_and_unique (tileSize : ℚ) (g : Overworld.Grid)
    (cand : ℕ → ℕ × ℕ) :
    (∀ (i fuel : ℕ) (p : ℚ × ℚ),
      Overworld.findValidSpawnAux tileSize g cand i fuel = some p →
      ∃ x y, Overworld.gridAt g y x = Overworld.TileType.Grass ∧
        p = ((x : ℚ) * tileSize + tileSize / 2,
             (y : ℚ) * tileSize + tileSize / 2)) ∧
    ((∀ x y, Overworld.gridAt g y x = Overworld.TileType.Grass ↔ x = 3 ∧ y = 3) →
      ∀ (i fuel : ℕ) (p : ℚ × ℚ),
        Overworld.findValidSpawnAux 16 g cand i fuel = some p →
        p = (56, 56)) := by
  constructor
  · intro i fuel p h
    exact findValidSpawnAux_some_center tileSize g cand fuel i p h
  · intro hg i fuel p h
    obtain ⟨x, y, hx, hp⟩ := findValidSpawnAux_some_center 16 g cand fuel i p h
    obtain ⟨rfl, rfl⟩ := (hg x y).mp hx
    rw [hp]
    norm_num

/-- Witness for C8: on a 4x4 grid whose only Grass cell is (3,3), a run that
returns does return the center of a Grass cell, namely (56, 56). -/
theorem findValidSpawn_center_and_unique_witness :
    ∃ x y,
      Overworld.gridAt
        [[Overworld.TileType.Trees, Overworld.TileType.Trees,
          Overworld.TileType.Trees, Overworld.TileType.Trees],
         [Overworld.TileType.Trees, Overworld.TileType.Trees,
          Overworld.TileType.Trees, Overworld.TileType.Trees],
         [Overworld.TileType.Trees, Overworld.TileType.Trees,
          Overworld.TileType.Trees, Overworld.TileType.Trees],
         [Overworld.TileType.Trees, Overworld.TileType.Trees,
          Overworld.TileType.Trees, Overworld.TileType.Grass]] y x
        = Overworld.TileType.Grass ∧
      ((56 : ℚ), (56 : ℚ)) =
        ((x : ℚ) * 16 + 16 / 2, (y : ℚ) * 16 + 16 / 2) :=
  (findValidSpawn_center_and_unique 16
      [[Overworld.TileType.Trees, Overworld.TileType.Trees,
        Overworld.TileType.Trees, Overworld.TileType.Trees],
       [Overworld.TileType.Trees, Overworld.TileType.Trees,
        Overworld.TileType.Trees, Overworld.TileType.Trees],
       [Overworld.TileType.Trees, Overworld.TileType.Trees,
        Overworld.TileType.Trees, Overworld.TileType.Trees],
       [Overworld.TileType.Trees, Overworld.TileType.Trees,
        Overworld.TileType.Trees, Overworld.TileType.Grass]]
      (fun _ => (3, 3))).1 0 1 (56, 56)
    (by
      unfold Overworld.findValidSpawnAux
      rw [if_pos (by decide)]
      norm_num)

/-- Separation on any axis of the carved rectangles makes two rooms
disjoint. -/
theorem roomsDisjoint_of_separated {a b : Doom.Room}
    (h : b.x + b.w < a.x ∨ a.x + a.w < b.x ∨ b.y + b.h < a.y ∨ a.y + a.h < b.y) :
    Doom.roomsDisjoint a b := by
  intro p hp
  obtain ⟨⟨ha1, ha2, ha3, ha4⟩, hb1, hb2, hb3, hb4⟩ := hp
  rcases h with h | h | h | h <;> omega

/-- Any list reachable by the guarded placement fold from a pairwise-disjoint
accumulator is pairwise disjoint, provided the overlap test implies
separation when it returns false. -/
theorem placeRoomsWith_fold_pairwise (ovl : Doom.Room → Doom.Room → Bool)
    (hovl : ∀ room c, ovl room c = false → Doom.roomsDisjoint room c)
    (numRooms : ℕ) :
    ∀ (cands rooms : List Doom.Room),
      List.Pairwise Doom.roomsDisjoint rooms →
      List.Pairwise Doom.roomsDisjoint
        (cands.foldl
          (fun rooms c =>
            if numRooms ≤ rooms.length then rooms
            else if rooms.any (fun room => ovl room c) then rooms
            else rooms ++ [c]) rooms) := by
  intro cands
  induction cands with
  | nil => intro rooms h; exact h
  | cons c cs ih =>
    intro rooms h
    apply ih
    dsimp only
    split
    · exact h
    · split
      · exact h
      · rename_i hany
        rw [List.pairwise_append]
        refine ⟨h, List.pairwise_singleton _ _, ?_⟩
        intro a ha b hb
        obtain rfl : b = c := by simpa using hb
        apply hovl
        by_contra hne
        exact hany (List.any_eq_true.mpr
          ⟨a, ha, by simpa using Bool.not_eq_false _ |>.mp hne⟩)

/-- C9 amended: the room-placement loops of main_doom_fixed.cpp and
main_complete.cpp only accept a candidate that passes the rejection test
against every previously placed room, so their placed rooms are pairwise
non-overlapping; this does not hold for main_reference.cpp (see the
counterexample theorem). -/
theorem placeRooms_pairwise_disjoint (numRooms : ℕ) (cands : List Doom.Room) :
    List.Pairwise Doom.roomsDisjoint (Doom.placeRooms numRooms cands) ∧
    List.Pairwise Doom.roomsDisjoint (Doom.placeRoomsComplete numRooms cands) := by
  constructor
  · apply placeRoomsWith_fold_pairwise Doom.roomOverlapChk _ numRooms cands []
      List.Pairwise.nil
    intro room c hc
    unfold Doom.roomOverlapChk at hc
    simp at hc
    apply roomsDisjoint_of_separated
    rcases lt_or_le (c.x + c.w) room.x with h1 | h1
    · exact Or.inl h1
    rcases lt_or_le (room.x + room.w) c.x with h2 | h2
    · exact Or.inr (Or.inl h2)
    rcases lt_or_le (c.y + c.h) room.y with h3 | h3
    · exact Or.inr (Or.inr (Or.inl h3))
    exact Or.inr (Or.inr (Or.inr (hc h1 h2 h3)))
  · apply placeRoomsWith_fold_pairwise Doom.roomOverlapChkInflated _ numRooms cands []
      List.Pairwise.nil
    intro room c hc
    unfold Doom.roomOverlapChkInflated at hc
    simp at hc
    apply roomsDisjoint_of_separated
    rcases lt_or_le (c.x + c.w) room.x with h1 | h1
    · exact Or.inl h1
    rcases lt_or_le (room.x + room.w) c.x with h2 | h2
    · exact Or.inr (Or.inl h2)
    rcases lt_or_le (c.y + c.h) room.y with h3 | h3
    · exact Or.inr (Or.inr (Or.inl h3))
    refine Or.inr (Or.inr (Or.inr ?_))
    have h4 := hc (by omega) (by omega) (by omega)
    omega

/-- C9 counterexample: the room-placement of generateDungeon in
main_reference.cpp accepts every candidate unconditionally, so two distinct
placed rooms can share cells; rooms (2,2,4,4) and (3,3,4,4) are both placed
and both contain cell (3,3). -/
theorem placeRoomsReference_overlap :
    Doom.placeRoomsReference [⟨2, 2, 4, 4⟩, ⟨3, 3, 4, 4⟩] =
      [⟨2, 2, 4, 4⟩, ⟨3, 3, 4, 4⟩] ∧
    Doom.roomCells ⟨2, 2, 4, 4⟩ (3, 3) ∧
    Doom.roomCells ⟨3, 3, 4, 4⟩ (3, 3) ∧
    (⟨2, 2, 4, 4⟩ : Doom.Room) ≠ ⟨3, 3, 4, 4⟩ :=
  ⟨rfl, by decide, by decide, by decide⟩

/-- Truncation of a value lying in a non-negative unit interval `[i, i+1)`
lands on `i`. -/
theorem cTrunc_eq_of_bracket {q : ℚ} {i : ℤ} (h0 : 0 ≤ i)
    (hl : (i : ℚ) ≤ q) (hu : q < (i : ℚ) + 1) : Doom.cTrunc q = i := by
  unfold Doom.cTrunc
  have hq0 : ¬(q < 0) := not_lt.mpr (le_trans (by exact_mod_cast h0) hl)
  rw [if_neg hq0, Int.floor_eq_iff]
  exact ⟨hl, hu⟩

/-- For a point strictly inside column `i` and a radius below half a tile,
one of the two X-extreme corner abscissas truncates to `i`. -/
theorem corner_coord_choice {q r : ℚ} {i : ℤ} (h0 : 0 ≤ i) (hr0 : 0 ≤ r)
    (hr : r < 1 / 2) (hl : (i : ℚ) < q) (hu : q < (i : ℚ) + 1) :
    Doom.cTrunc (q - r) = i ∨ Doom.cTrunc (q + r) = i := by
  rcases le_or_lt (i : ℚ) (q - r) with h | h
  · exact Or.inl (cTrunc_eq_of_bracket h0 h (by linarith))
  · exact Or.inr (cTrunc_eq_of_bracket h0 (by linarith) (by linarith))

/-- C3: checkCollision is true exactly when one of the 4 corner points of
the radius-`r` square truncates out of bounds or into a Wall cell; in
particular, for `0 ≤ r < 1/2`, a point strictly inside an in-bounds Wall
cell is always blocked, and a point whose 4 corner cells are in bounds and
Empty is not blocked. -/
theorem checkCollision_corner_rule (m : Doom.GameMap) (x y r : ℚ) :
    (Doom.checkCollision m x y r = true ↔
      ∃ p ∈ Doom.cornerPoints x y r,
        Doom.cTrunc p.1 < 0 ∨ Doom.MAP_WIDTH ≤ Doom.cTrunc p.1 ∨
        Doom.cTrunc p.2 < 0 ∨ Doom.MAP_HEIGHT ≤ Doom.cTrunc p.2 ∨
        m (Doom.cTrunc p.2) (Doom.cTrunc p.1) = Doom.TileType.Wall) ∧
    (∀ i j : ℤ, 0 ≤ r → r < 1 / 2 →
      0 ≤ i → i < Doom.MAP_WIDTH → 0 ≤ j → j < Doom.MAP_HEIGHT →
      m j i = Doom.TileType.Wall →
      (i : ℚ) < x → x < (i : ℚ) + 1 → (j : ℚ) < y → y < (j : ℚ) + 1 →
      Doom.checkCollision m x y r = true) ∧
    ((∀ p ∈ Doom.cornerPoints x y r,
        0 ≤ Doom.cTrunc p.1 ∧ Doom.cTrunc p.1 < Doom.MAP_WIDTH ∧
        0 ≤ Doom.cTrunc p.2 ∧ Doom.cTrunc p.2 < Doom.MAP_HEIGHT ∧
        m (Doom.cTrunc p.2) (Doom.cTrunc p.1) = Doom.TileType.Empty) →
      Doom.checkCollision m x y r = false) := by
  have hone : ∀ cx cy, Doom.cornerBlocked m cx cy = true ↔
      (Doom.cTrunc cx < 0 ∨ Doom.MAP_WIDTH ≤ Doom.cTrunc cx ∨
       Doom.cTrunc cy < 0 ∨ Doom.MAP_HEIGHT ≤ Doom.cTrunc cy ∨
       m (Doom.cTrunc cy) (Doom.cTrunc cx) = Doom.TileType.Wall) := by
    intro cx cy
    unfold Doom.cornerBlocked
    exact decide_eq_true_iff
  have h1 : Doom.checkCollision m x y r = true ↔
      ∃ p ∈ Doom.cornerPoints x y r,
        Doom.cTrunc p.1 < 0 ∨ Doom.MAP_WIDTH ≤ Doom.cTrunc p.1 ∨
        Doom.cTrunc p.2 < 0 ∨ Doom.MAP_HEIGHT ≤ Doom.cTrunc p.2 ∨
        m (Doom.cTrunc p.2) (Doom.cTrunc p.1) = Doom.TileType.Wall := by
    constructor
    · intro h
      unfold Doom.checkCollision at h
      simp only [Bool.or_eq_true] at h
      rcases h with ((h | h) | h) | h
      · exact ⟨(x - r, y - r), by simp [Doom.cornerPoints], (hone _ _).mp h⟩
      · exact ⟨(x + r, y - r), by simp [Doom.cornerPoints], (hone _ _).mp h⟩
      · exact ⟨(x - r, y + r), by simp [Doom.cornerPoints], (hone _ _).mp h⟩
      · exact ⟨(x + r, y + r), by simp [Doom.cornerPoints], (hone _ _).mp h⟩
    · rintro ⟨p, hmem, hp⟩
      simp only [Doom.cornerPoints, List.mem_cons, List.not_mem_nil, or_false] at hmem
      unfold Doom.checkCollision
      simp only [Bool.or_eq_true]
      rcases hmem with rfl | rfl | rfl | rfl
      · exact Or.inl (Or.inl (Or.inl ((hone _ _).mpr hp)))
      · exact Or.inl (Or.inl (Or.inr ((hone _ _).mpr hp)))
      · exact Or.inl (Or.inr ((hone _ _).mpr hp))
      · exact Or.inr ((hone _ _).mpr hp)
  refine ⟨h1, ?_, ?_⟩
  · intro i j hr0 hr hi0 hiW hj0 hjH hwall hx1 hx2 hy1 hy2
    have hcx := corner_coord_choice hi0 hr0 hr hx1 hx2
    have hcy := corner_coord_choice hj0 hr0 hr hy1 hy2
    unfold Doom.checkCollision
    simp only [Bool.or_eq_true]
    rcases hcx with hx | hx <;> rcases hcy with hy | hy
    · refine Or.inl (Or.inl (Or.inl ((hone _ _).mpr ?_)))
      rw [hx, hy]
      exact Or.inr (Or.inr (Or.inr (Or.inr hwall)))
    · refine Or.inl (Or.inr ((hone _ _).mpr ?_))
      rw [hx, hy]
      exact Or.inr (Or.inr (Or.inr (Or.inr hwall)))
    · refine Or.inl (Or.inl (Or.inr ((hone _ _).mpr ?_)))
      rw [hx, hy]
      exact Or.inr (Or.inr (Or.inr (Or.inr hwall)))
    · refine Or.inr ((hone _ _).mpr ?_)
      rw [hx, hy]
      exact Or.inr (Or.inr (Or.inr (Or.inr hwall)))
  · intro hall
    have hcb : ∀ cx cy, (cx, cy) ∈ Doom.cornerPoints x y r →
        Doom.cornerBlocked m cx cy = false := by
      intro cx cy hmem
      obtain ⟨b1, b2, b3, b4, bEmp⟩ := hall (cx, cy) hmem
      dsimp only at b1 b2 b3 b4 bEmp
      unfold Doom.cornerBlocked
      apply decide_eq_false
      intro hor
      rcases hor with h | h | h | h | h
      · omega
      · omega
      · omega
      · omega
      · rw [bEmp] at h
        exact absurd h (by decide)
    unfold Doom.checkCollision
    rw [hcb (x - r) (y - r) (by simp [Doom.cornerPoints]),
        hcb (x + r) (y - r) (by simp [Doom.cornerPoints]),
        hcb (x - r) (y + r) (by simp [Doom.cornerPoints]),
        hcb (x + r) (y + r) (by simp [Doom.cornerPoints])]
    rfl

/-- Witness for C3: the point (5/2, 5/2) strictly inside the Wall cell (2,2)
is blocked at radius 1/4. -/
theorem checkCollision_corner_rule_witness :
    Doom.checkCollision
      (fun j i => if j = 2 ∧ i = 2 then Doom.TileType.Wall else Doom.TileType.Empty)
      (5 / 2) (5 / 2) (1 / 4) = true :=
  (checkCollision_corner_rule
      (fun j i => if j = 2 ∧ i = 2 then Doom.TileType.Wall else Doom.TileType.Empty)
      (5 / 2) (5 / 2) (1 / 4)).2.1 2 2
    (by norm_num) (by norm_num) (by decide) (by decide) (by decide) (by decide)
    (by decide) (by norm_num) (by norm_num) (by norm_num) (by norm_num)

/-- Each DDA iteration either steps along X or along Y. -/
theorem ddaStep_cases (r : Doom.RaySetup) (s : Doom.DDAState) :
    Doom.ddaStep r s =
      { s with sideDistX := s.sideDistX + r.deltaDistX
               mapX := s.mapX + r.stepX
               side := 0 } ∨
    Doom.ddaStep r s =
      { s with sideDistY := s.sideDistY + r.deltaDistY
               mapY := s.mapY + r.stepY
               side := 1 } := by
  unfold Doom.ddaStep
  split
  · exact Or.inl rfl
  · exact Or.inr rfl

/-- When the stepped-into cell is still inside the map, one DDA step strictly
decreases the termination measure. -/
theorem ddaMeasure_decr (r : Doom.RaySetup) (s : Doom.DDAState)
    (hsx : r.stepX = 1 ∨ r.stepX = -1) (hsy : r.stepY = 1 ∨ r.stepY = -1)
    (hin2 : 0 ≤ (Doom.ddaStep r s).mapX ∧ (Doom.ddaStep r s).mapX < Doom.MAP_WIDTH ∧
            0 ≤ (Doom.ddaStep r s).mapY ∧ (Doom.ddaStep r s).mapY < Doom.MAP_HEIGHT) :
    Doom.ddaMeasure r (Doom.ddaStep r s) < Doom.ddaMeasure r s := by
  have hW : Doom.MAP_WIDTH = 64 := rfl
  have hH : Doom.MAP_HEIGHT = 64 := rfl
  rcases ddaStep_cases r s with h | h <;> rw [h] at hin2 ⊢ <;>
    dsimp only at hin2 ⊢ <;>
    unfold Doom.ddaMeasure Doom.axisDist <;>
    dsimp only <;>
    rw [hW] at hin2 ⊢ <;> rw [hH] at hin2 ⊢ <;>
    split_ifs <;> omega

/-- From any in-bounds state, the DDA loop reaches a stopped state (strong
induction on the termination measure). -/
theorem dda_reaches_stop_aux (m : Doom.GameMap) (r : Doom.RaySetup)
    (hsx : r.stepX = 1 ∨ r.stepX = -1) (hsy : r.stepY = 1 ∨ r.stepY = -1) :
    ∀ (k : ℕ) (s : Doom.DDAState), Doom.ddaMeasure r s = k →
      0 ≤ s.mapX → s.mapX < Doom.MAP_WIDTH → 0 ≤ s.mapY → s.mapY < Doom.MAP_HEIGHT →
      ∃ n, 1 ≤ n ∧ Doom.ddaStopped m (Doom.ddaRun m r n s) = true := by
  intro k
  induction k using Nat.strong_induction_on with
  | _ k ih =>
    intro s hk _ _ _ _
    by_cases h1 : Doom.ddaStopped m (Doom.ddaStep r s) = true
    · refine ⟨1, le_refl 1, ?_⟩
      simp [Doom.ddaRun, h1]
    · have hstop : Doom.ddaStopped m (Doom.ddaStep r s) = false := by
        simpa using h1
      have hin2 : 0 ≤ (Doom.ddaStep r s).mapX ∧
          (Doom.ddaStep r s).mapX < Doom.MAP_WIDTH ∧
          0 ≤ (Doom.ddaStep r s).mapY ∧
          (Doom.ddaStep r s).mapY < Doom.MAP_HEIGHT := by
        have hp := of_decide_eq_false hstop
        push_neg at hp
        exact ⟨hp.1, hp.2.1, hp.2.2.1, hp.2.2.2.1⟩
      have hdec : Doom.ddaMeasure r (Doom.ddaStep r s) < k :=
        hk ▸ ddaMeasure_decr r s hsx hsy hin2
      obtain ⟨n, hn1, hns⟩ := ih (Doom.ddaMeasure r (Doom.ddaStep r s)) hdec
        (Doom.ddaStep r s) rfl hin2.1 hin2.2.1 hin2.2.2.1 hin2.2.2.2
      refine ⟨n + 1, by omega, ?_⟩
      have hrun : Doom.ddaRun m r (n + 1) s = Doom.ddaRun m r n (Doom.ddaStep r s) := by
        simp [Doom.ddaRun, hstop]
      rw [hrun]
      exact hns

/-- From any state at all, the DDA loop reaches a stopped state. -/
theorem dda_reaches_stop (m : Doom.GameMap) (r : Doom.RaySetup)
    (hsx : r.stepX = 1 ∨ r.stepX = -1) (hsy : r.stepY = 1 ∨ r.stepY = -1)
    (s : Doom.DDAState) :
    ∃ n, 1 ≤ n ∧ Doom.ddaStopped m (Doom.ddaRun m r n s) = true := by
  by_cases h1 : Doom.ddaStopped m (Doom.ddaStep r s) = true
  · refine ⟨1, le_refl 1, ?_⟩
    simp [Doom.ddaRun, h1]
  · have hstop : Doom.ddaStopped m (Doom.ddaStep r s) = false := by simpa using h1
    have hin2 := of_decide_eq_false hstop
    push_neg at hin2
    obtain ⟨n, hn1, hns⟩ := dda_reaches_stop_aux m r hsx hsy
      (Doom.ddaMeasure r (Doom.ddaStep r s)) (Doom.ddaStep r s) rfl
      hin2.1 hin2.2.1 hin2.2.2.1 hin2.2.2.2.1
    refine ⟨n + 1, by omega, ?_⟩
    have hrun : Doom.ddaRun m r (n + 1) s = Doom.ddaRun m r n (Doom.ddaStep r s) := by
      simp [Doom.ddaRun, hstop]
    rw [hrun]
    exact hns

/-- C5: for every map, camera position and ray direction (zero components
included, via the 1e30 sentinel delta distances), the DDA loop terminates:
after finitely many steps the stepped-into cell is out of bounds or a
Wall. -/
theorem dda_terminates (m : Doom.GameMap) (posX posY rayDirX rayDirY : ℚ) :
    ∃ n, 1 ≤ n ∧
      Doom.ddaStopped m
        (Doom.ddaRun m (Doom.mkRaySetup rayDirX rayDirY) n
          (Doom.mkRayInit posX posY rayDirX rayDirY)) = true := by
  have hsx : (Doom.mkRaySetup rayDirX rayDirY).stepX = 1 ∨
      (Doom.mkRaySetup rayDirX rayDirY).stepX = -1 := by
    unfold Doom.mkRaySetup
    dsimp only
    split
    · exact Or.inr rfl
    · exact Or.inl rfl
  have hsy : (Doom.mkRaySetup rayDirX rayDirY).stepY = 1 ∨
      (Doom.mkRaySetup rayDirX rayDirY).stepY = -1 := by
    unfold Doom.mkRaySetup
    dsimp only
    split
    · exact Or.inr rfl
    · exact Or.inl rfl
  exact dda_reaches_stop m _ hsx hsy _

/-- The delta distance equals `stepX / rayDirX` when the component is
nonzero. -/
theorem deltaDistX_eq_step_div (rayDirX rayDirY : ℚ) (hx : rayDirX ≠ 0) :
    (Doom.mkRaySetup rayDirX rayDirY).deltaDistX =
      ((Doom.mkRaySetup rayDirX rayDirY).stepX : ℚ) / rayDirX := by
  unfold Doom.mkRaySetup
  dsimp only
  rw [if_neg hx]
  split_ifs with h
  · rw [abs_of_neg (one_div_neg.mpr h)]
    push_cast
    ring
  · rw [abs_of_pos (one_div_pos.mpr (lt_of_le_of_ne (not_lt.mp h) (Ne.symm hx)))]
    push_cast
    ring

/-- The delta distance equals `stepY / rayDirY` when the component is
nonzero. -/
theorem deltaDistY_eq_step_div (rayDirX rayDirY : ℚ) (hy : rayDirY ≠ 0) :
    (Doom.mkRaySetup rayDirX rayDirY).deltaDistY =
      ((Doom.mkRaySetup rayDirX rayDirY).stepY : ℚ) / rayDirY := by
  unfold Doom.mkRaySetup
  dsimp only
  rw [if_neg hy]
  split_ifs with h
  · rw [abs_of_neg (one_div_neg.mpr h)]
    push_cast
    ring
  · rw [abs_of_pos (one_div_pos.mpr (lt_of_le_of_ne (not_lt.mp h) (Ne.symm hy)))]
    push_cast
    ring

/-- At the initial DDA state the accumulated-side-distance form already
satisfies the invariant `sideDistX = perpFormulaX + deltaDistX`. -/
theorem perp_inv_initX (posX posY rayDirX rayDirY : ℚ) (hx : rayDirX ≠ 0) :
    (Doom.mkRayInit posX posY rayDirX rayDirY).sideDistX =
      Doom.perpFormulaX posX rayDirX (Doom.mkRaySetup rayDirX rayDirY)
        (Doom.mkRayInit posX posY rayDirX rayDirY) +
      (Doom.mkRaySetup rayDirX rayDirY).deltaDistX := by
  rw [deltaDistX_eq_step_div rayDirX rayDirY hx]
  unfold Doom.mkRayInit Doom.mkRaySetup Doom.perpFormulaX
  dsimp only
  rw [if_neg hx]
  split_ifs with h
  · rw [abs_of_neg (one_div_neg.mpr h)]
    push_cast
    field_simp
    try ring
  · rw [abs_of_pos (one_div_pos.mpr (lt_of_le_of_ne (not_lt.mp h) (Ne.symm hx)))]
    push_cast
    field_simp
    try ring

/-- At the initial DDA state the accumulated-side-distance form already
satisfies the invariant `sideDistY = perpFormulaY + deltaDistY`. -/
theorem perp_inv_initY (posX posY rayDirX rayDirY : ℚ) (hy : rayDirY ≠ 0) :
    (Doom.mkRayInit posX posY rayDirX rayDirY).sideDistY =
      Doom.perpFormulaY posY rayDirY (Doom.mkRaySetup rayDirX rayDirY)
        (Doom.mkRayInit posX posY rayDirX rayDirY) +
      (Doom.mkRaySetup rayDirX rayDirY).deltaDistY := by
  rw [deltaDistY_eq_step_div rayDirX rayDirY hy]
  unfold Doom.mkRayInit Doom.mkRaySetup Doom.perpFormulaY
  dsimp only
  rw [if_neg hy]
  split_ifs with h
  · rw [abs_of_neg (one_div_neg.mpr h)]
    push_cast
    field_simp
    try ring
  · rw [abs_of_pos (one_div_pos.mpr (lt_of_le_of_ne (not_lt.mp h) (Ne.symm hy)))]
    push_cast
    field_simp
    try ring

/-- One DDA step preserves both side-distance invariants. -/
theorem perp_inv_step (posX posY rayDirX rayDirY : ℚ) (s : Doom.DDAState)
    (hX : rayDirX ≠ 0 → s.sideDistX =
      Doom.perpFormulaX posX rayDirX (Doom.mkRaySetup rayDirX rayDirY) s +
      (Doom.mkRaySetup rayDirX rayDirY).deltaDistX)
    (hY : rayDirY ≠ 0 → s.sideDistY =
      Doom.perpFormulaY posY rayDirY (Doom.mkRaySetup rayDirX rayDirY) s +
      (Doom.mkRaySetup rayDirX rayDirY).deltaDistY) :
    (rayDirX ≠ 0 → (Doom.ddaStep (Doom.mkRaySetup rayDirX rayDirY) s).sideDistX =
      Doom.perpFormulaX posX rayDirX (Doom.mkRaySetup rayDirX rayDirY)
        (Doom.ddaStep (Doom.mkRaySetup rayDirX rayDirY) s) +
      (Doom.mkRaySetup rayDirX rayDirY).deltaDistX) ∧
    (rayDirY ≠ 0 → (Doom.ddaStep (Doom.mkRaySetup rayDirX rayDirY) s).sideDistY =
      Doom.perpFormulaY posY rayDirY (Doom.mkRaySetup rayDirX rayDirY)
        (Doom.ddaStep (Doom.mkRaySetup rayDirX rayDirY) s) +
      (Doom.mkRaySetup rayDirX rayDirY).deltaDistY) := by
  rcases ddaStep_cases (Doom.mkRaySetup rayDirX rayDirY) s with h | h <;> rw [h] <;>
    constructor
  · intro hx
    have hs := hX hx
    unfold Doom.perpFormulaX at hs ⊢
    dsimp only
    rw [hs, deltaDistX_eq_step_div rayDirX rayDirY hx]
    push_cast
    field_simp
    ring
  · intro hy
    have hs := hY hy
    unfold Doom.perpFormulaY at hs ⊢
    dsimp only
    exact hs
  · intro hx
    have hs := hX hx
    unfold Doom.perpFormulaX at hs ⊢
    dsimp only
    exact hs
  · intro hy
    have hs := hY hy
    unfold Doom.perpFormulaY at hs ⊢
    dsimp only
    rw [hs, deltaDistY_eq_step_div rayDirX rayDirY hy]
    push_cast
    field_simp
    ring

/-- The side-distance invariants hold at every state the (early-stopping)
DDA loop can reach. -/
theorem perp_inv_run (m : Doom.GameMap) (posX posY rayDirX rayDirY : ℚ) :
    ∀ (n : ℕ) (s : Doom.DDAState),
      (rayDirX ≠ 0 → s.sideDistX =
        Doom.perpFormulaX posX rayDirX (Doom.mkRaySetup rayDirX rayDirY) s +
        (Doom.mkRaySetup rayDirX rayDirY).deltaDistX) →
      (rayDirY ≠ 0 → s.sideDistY =
        Doom.perpFormulaY posY rayDirY (Doom.mkRaySetup rayDirX rayDirY) s +
        (Doom.mkRaySetup rayDirX rayDirY).deltaDistY) →
      (rayDirX ≠ 0 →
        (Doom.ddaRun m (Doom.mkRaySetup rayDirX rayDirY) n s).sideDistX =
          Doom.perpFormulaX posX rayDirX (Doom.mkRaySetup rayDirX rayDirY)
            (Doom.ddaRun m (Doom.mkRaySetup rayDirX rayDirY) n s) +
          (Doom.mkRaySetup rayDirX rayDirY).deltaDistX) ∧
      (rayDirY ≠ 0 →
        (Doom.ddaRun m (Doom.mkRaySetup rayDirX rayDirY) n s).sideDistY =
          Doom.perpFormulaY posY rayDirY (Doom.mkRaySetup rayDirX rayDirY)
            (Doom.ddaRun m (Doom.mkRaySetup rayDirX rayDirY) n s) +
          (Doom.mkRaySetup rayDirX rayDirY).deltaDistY) := by
  intro n
  induction n with
  | zero => intro s hX hY; exact ⟨hX, hY⟩
  | succ n ih =>
    intro s hX hY
    have hstep := perp_inv_step posX posY rayDirX rayDirY s hX hY
    unfold Doom.ddaRun
    dsimp only
    split
    · exact hstep
    · exact ih _ hstep.1 hstep.2

/-- C4 amended: at every state reached by the DDA loop (in particular at the
stopping state), when the last step was on X and the X ray component is
nonzero, the accumulated form `sideDistX - deltaDistX` of main_reference.cpp
equals the formula `(mapX - posX + (1-stepX)/2) / rayDirX` of
main_doom_fixed.cpp, and symmetrically for Y; the nonzero-component
hypothesis cannot be dropped (see the counterexample theorem). -/
theorem dda_perp_forms_agree (m : Doom.GameMap) (posX posY rayDirX rayDirY : ℚ)
    (n : ℕ) :
    ((Doom.ddaRun m (Doom.mkRaySetup rayDirX rayDirY) n
        (Doom.mkRayInit posX posY rayDirX rayDirY)).side = 0 →
      rayDirX ≠ 0 →
      (Doom.ddaRun m (Doom.mkRaySetup rayDirX rayDirY) n
        (Doom.mkRayInit posX posY rayDirX rayDirY)).sideDistX -
        (Doom.mkRaySetup rayDirX rayDirY).deltaDistX =
      Doom.perpFormulaX posX rayDirX (Doom.mkRaySetup rayDirX rayDirY)
        (Doom.ddaRun m (Doom.mkRaySetup rayDirX rayDirY) n
          (Doom.mkRayInit posX posY rayDirX rayDirY))) ∧
    ((Doom.ddaRun m (Doom.mkRaySetup rayDirX rayDirY) n
        (Doom.mkRayInit posX posY rayDirX rayDirY)).side = 1 →
      rayDirY ≠ 0 →
      (Doom.ddaRun m (Doom.mkRaySetup rayDirX rayDirY) n
        (Doom.mkRayInit posX posY rayDirX rayDirY)).sideDistY -
        (Doom.mkRaySetup rayDirX rayDirY).deltaDistY =
      Doom.perpFormulaY posY rayDirY (Doom.mkRaySetup rayDirX rayDirY)
        (Doom.ddaRun m (Doom.mkRaySetup rayDirX rayDirY) n
          (Doom.mkRayInit posX posY rayDirX rayDirY))) := by
  have hrun := perp_inv_run m posX posY rayDirX rayDirY n
    (Doom.mkRayInit posX posY rayDirX rayDirY)
    (perp_inv_initX posX posY rayDirX rayDirY)
    (perp_inv_initY posX posY rayDirX rayDirY)
  constructor
  · intro _ hx
    rw [hrun.1 hx]
    ring
  · intro _ hy
    rw [hrun.2 hy]
    ring

/-- Witness for C4 on the all-Wall map with ray direction (1, 1/3) from
(1/2, 1/2): the loop stops after one X step and both distance forms give
1/2. -/
theorem dda_perp_forms_agree_witness :
    (Doom.ddaRun (fun _ _ => Doom.TileType.Wall) (Doom.mkRaySetup 1 (1 / 3)) 1
        (Doom.mkRayInit (1 / 2) (1 / 2) 1 (1 / 3))).sideDistX -
      (Doom.mkRaySetup 1 (1 / 3)).deltaDistX =
    Doom.perpFormulaX (1 / 2) 1 (Doom.mkRaySetup 1 (1 / 3))
      (Doom.ddaRun (fun _ _ => Doom.TileType.Wall) (Doom.mkRaySetup 1 (1 / 3)) 1
        (Doom.mkRayInit (1 / 2) (1 / 2) 1 (1 / 3))) :=
  (dda_perp_forms_agree (fun _ _ => Doom.TileType.Wall) (1 / 2) (1 / 2) 1 (1 / 3) 1).1
    (by norm_num [Doom.ddaRun, Doom.ddaStep, Doom.ddaStopped, Doom.mkRayInit,
      Doom.mkRaySetup, Doom.cTrunc, Doom.bigSentinel, Doom.MAP_WIDTH, Doom.MAP_HEIGHT])
    (by norm_num)

/-- C4 counterexample: with a zero X ray component the ray can still stop on
an X step (the 1e30 sentinel side distance can be the smaller one), and then
the accumulated form of main_reference.cpp and the division formula of
main_doom_fixed.cpp disagree: here they give 10^30/2 and a division by
zero. -/
theorem dda_perp_forms_differ :
    (Doom.ddaRun (fun _ _ => Doom.TileType.Wall)
        (Doom.mkRaySetup 0 (1 / 10 ^ 31)) 1
        (Doom.mkRayInit (1 / 2) (1 / 2) 0 (1 / 10 ^ 31))).side = 0 ∧
    (Doom.ddaRun (fun _ _ => Doom.TileType.Wall)
        (Doom.mkRaySetup 0 (1 / 10 ^ 31)) 1
        (Doom.mkRayInit (1 / 2) (1 / 2) 0 (1 / 10 ^ 31))).sideDistX -
      (Doom.mkRaySetup 0 (1 / 10 ^ 31)).deltaDistX ≠
    Doom.perpFormulaX (1 / 2) 0 (Doom.mkRaySetup 0 (1 / 10 ^ 31))
      (Doom.ddaRun (fun _ _ => Doom.TileType.Wall)
        (Doom.mkRaySetup 0 (1 / 10 ^ 31)) 1
        (Doom.mkRayInit (1 / 2) (1 / 2) 0 (1 / 10 ^ 31))) := by
  constructor <;>
    norm_num [Doom.ddaRun, Doom.ddaStep, Doom.ddaStopped, Doom.mkRayInit,
      Doom.mkRaySetup, Doom.cTrunc, Doom.bigSentinel, Doom.perpFormulaX,
      Doom.MAP_WIDTH, Doom.MAP_HEIGHT]

/-- Writing one cell preserves the grid dimensions. -/
theorem setCell_wellFormed {width height : ℕ} {g : Overworld.Grid}
    (hwf : Overworld.wellFormed width height g) (y x : ℕ) (hy : y < height)
    (t : Overworld.TileType) :
    Overworld.wellFormed width height (Overworld.setCell g y x t) := by
  obtain ⟨hlen, hrow⟩ := hwf
  refine ⟨by simpa [Overworld.setCell] using hlen, ?_⟩
  intro row hmem
  rcases List.mem_or_eq_of_mem_set hmem with hmem2 | rfl
  · exact hrow _ hmem2
  · rw [List.length_set]
    have hylen : y < g.length := by omega
    rw [List.getD_eq_getElem?_getD, List.getElem?_eq_getElem hylen]
    exact hrow _ (List.getElem_mem hylen)

/-- Reading back the cell just written. -/
theorem gridAt_setCell_same {width height : ℕ} {g : Overworld.Grid}
    (hwf : Overworld.wellFormed width height g) {y x : ℕ} (hy : y < height)
    (hx : x < width) (t : Overworld.TileType) :
    Overworld.gridAt (Overworld.setCell g y x t) y x = t := by
  obtain ⟨hlen, hrow⟩ := hwf
  have hylen : y < g.length := by omega
  have hxlen : x < (g.getD y []).length := by
    rw [List.getD_eq_getElem?_getD, List.getElem?_eq_getElem hylen]
    have := hrow _ (List.getElem_mem hylen)
    simpa [this] using hx
  unfold Overworld.gridAt Overworld.setCell
  simp only [List.getD_eq_getElem?_getD] at hxlen ⊢
  rw [List.getElem?_set_self hylen, Option.getD_some, List.getElem?_set_self hxlen,
    Option.getD_some]

/-- Writing one cell leaves every other cell unchanged. -/
theorem gridAt_setCell_other {g : Overworld.Grid} {y x y2 x2 : ℕ}
    (hne : y2 ≠ y ∨ x2 ≠ x) (t : Overworld.TileType) :
    Overworld.gridAt (Overworld.setCell g y x t) y2 x2 = Overworld.gridAt g y2 x2 := by
  unfold Overworld.gridAt Overworld.setCell
  simp only [List.getD_eq_getElem?_getD]
  by_cases hyy : y2 = y
  · subst hyy
    have hxx : x2 ≠ x := hne.resolve_left (fun h => h rfl)
    rcases lt_or_le y2 g.length with hylen | hylen
    · rw [List.getElem?_set_self hylen, Option.getD_some,
        List.getElem?_set_ne (Ne.symm hxx)]
    · rw [List.set_eq_of_length_le hylen]
  · rw [List.getElem?_set_ne (Ne.symm hyy)]

/-- The smoothing body preserves the grid dimensions. -/
theorem smoothCell_wellFormed {width height : ℕ} {g acc : Overworld.Grid}
    (hwf : Overworld.wellFormed width height acc) {y : ℕ} (hy : y < height) (x : ℕ) :
    Overworld.wellFormed width height (Overworld.smoothCell g width height acc y x) := by
  unfold Overworld.smoothCell
  dsimp only
  split_ifs
  · exact setCell_wellFormed hwf y x hy _
  · exact setCell_wellFormed hwf y x hy _
  · exact hwf

/-- Effect of the smoothing body on its own cell: the new value depends only
on the neighbor count in the frozen grid `g`, falling back to the
accumulator value on the tie. -/
theorem smoothCell_at {width height : ℕ} {g acc : Overworld.Grid}
    (hwf : Overworld.wellFormed width height acc) {y x : ℕ} (hy : y < height)
    (hx : x < width) :
    Overworld.gridAt (Overworld.smoothCell g width height acc y x) y x =
      (if 4 < Overworld.countTreeNeighbors (x : ℤ) (y : ℤ) (width : ℤ) (height : ℤ) g
       then Overworld.TileType.Trees
       else if Overworld.countTreeNeighbors (x : ℤ) (y : ℤ) (width : ℤ) (height : ℤ) g < 4
       then Overworld.TileType.Grass
       else Overworld.gridAt acc y x) := by
  unfold Overworld.smoothCell
  dsimp only
  split_ifs
  · exact gridAt_setCell_same hwf hy hx _
  · exact gridAt_setCell_same hwf hy hx _
  · rfl

/-- Effect of the smoothing body on any other cell: unchanged. -/
theorem smoothCell_other {width height : ℕ} {g acc : Overworld.Grid}
    {y x y2 x2 : ℕ} (hne : y2 ≠ y ∨ x2 ≠ x) :
    Overworld.gridAt (Overworld.smoothCell g width height acc y x) y2 x2 =
      Overworld.gridAt acc y2 x2 := by
  unfold Overworld.smoothCell
  dsimp only
  split_ifs
  · exact gridAt_setCell_other hne _
  · exact gridAt_setCell_other hne _
  · rfl

/-- The inner (one-row) fold preserves the grid dimensions. -/
theorem rowFold_wellFormed {width height : ℕ} {g : Overworld.Grid} {y : ℕ}
    (hy : y < height) :
    ∀ (xs : List ℕ) (acc : Overworld.Grid), Overworld.wellFormed width height acc →
      Overworld.wellFormed width height
        (xs.foldl (fun acc2 x => Overworld.smoothCell g width height acc2 y x) acc) := by
  intro xs
  induction xs with
  | nil => intro acc h; exact h
  | cons x xs ih => intro acc h; exact ih _ (smoothCell_wellFormed h hy x)

/-- The inner fold over row `y` does not touch other rows. -/
theorem rowFold_ne_row {width height : ℕ} {g : Overworld.Grid} {y y2 x2 : ℕ}
    (hne : y2 ≠ y) :
    ∀ (xs : List ℕ) (acc : Overworld.Grid),
      Overworld.gridAt
        (xs.foldl (fun acc2 x => Overworld.smoothCell g width height acc2 y x) acc) y2 x2 =
      Overworld.gridAt acc y2 x2 := by
  intro xs
  induction xs with
  | nil => intro acc; rfl
  | cons x xs ih =>
    intro acc
    rw [List.foldl_cons, ih, smoothCell_other (Or.inl hne)]

/-- The inner fold does not touch columns it does not visit. -/
theorem rowFold_not_mem {width height : ℕ} {g : Overworld.Grid} {y x2 : ℕ} :
    ∀ (xs : List ℕ), x2 ∉ xs → ∀ (acc : Overworld.Grid),
      Overworld.gridAt
        (xs.foldl (fun acc2 x => Overworld.smoothCell g width height acc2 y x) acc) y x2 =
      Overworld.gridAt acc y x2 := by
  intro xs
  induction xs with
  | nil => intro _ acc; rfl
  | cons x xs ih =>
    intro hmem acc
    have hx2x : x2 ≠ x := fun h => hmem (h ▸ List.mem_cons_self x xs)
    have hxs : x2 ∉ xs := fun h => hmem (List.mem_cons_of_mem x h)
    rw [List.foldl_cons, ih hxs, smoothCell_other (Or.inr hx2x)]

/-- The inner fold computes the majority-rule value at every column it
visits, reading neighbor counts from the frozen grid `g`. -/
theorem rowFold_mem {width height : ℕ} {g : Overworld.Grid} {y x2 : ℕ}
    (hy : y < height) (hx2 : x2 < width) :
    ∀ (xs : List ℕ), xs.Nodup → x2 ∈ xs → ∀ (acc : Overworld.Grid),
      Overworld.wellFormed width height acc →
      Overworld.gridAt acc y x2 = Overworld.gridAt g y x2 →
      Overworld.gridAt
        (xs.foldl (fun acc2 x => Overworld.smoothCell g width height acc2 y x) acc) y x2 =
      (if 4 < Overworld.countTreeNeighbors (x2 : ℤ) (y : ℤ) (width : ℤ) (height : ℤ) g
       then Overworld.TileType.Trees
       else if Overworld.countTreeNeighbors (x2 : ℤ) (y : ℤ) (width : ℤ) (height : ℤ) g < 4
       then Overworld.TileType.Grass
       else Overworld.gridAt g y x2) := by
  intro xs
  induction xs with
  | nil => intro _ hmem; cases hmem
  | cons x xs ih =>
    intro hnd hmem acc hwf hagree
    rw [List.foldl_cons]
    by_cases hx : x = x2
    · subst hx
      have hnotin : x ∉ xs := (List.nodup_cons.mp hnd).1
      rw [rowFold_not_mem xs hnotin, smoothCell_at hwf hy hx2, hagree]
    · have hmem2 : x2 ∈ xs := (List.mem_cons.mp hmem).resolve_left (fun h => hx h.symm)
      exact ih (List.nodup_cons.mp hnd).2 hmem2 _ (smoothCell_wellFormed hwf hy x)
        ((smoothCell_other (Or.inr (fun h => hx h.symm))).trans hagree)

/-- The outer (all-rows) fold does not touch rows it does not visit. -/
theorem gridFold_not_mem_row {width height : ℕ} {g : Overworld.Grid} {y2 x2 : ℕ} :
    ∀ (ys : List ℕ), y2 ∉ ys → ∀ (acc : Overworld.Grid),
      Overworld.gridAt
        (ys.foldl (fun acc y => (List.range width).foldl
          (fun acc2 x => Overworld.smoothCell g width height acc2 y x) acc) acc) y2 x2 =
      Overworld.gridAt acc y2 x2 := by
  intro ys
  induction ys with
  | nil => intro _ acc; rfl
  | cons y ys ih =>
    intro hmem acc
    have hy2y : y2 ≠ y := fun h => hmem (h ▸ List.mem_cons_self y ys)
    have hys : y2 ∉ ys := fun h => hmem (List.mem_cons_of_mem y h)
    rw [List.foldl_cons, ih hys, rowFold_ne_row hy2y]

/-- The outer fold computes the majority-rule value at every cell of every
row it visits, provided the accumulator still agrees with the frozen grid on
the unvisited rows. -/
theorem gridFold_spec {width height : ℕ} {g : Overworld.Grid} {py px : ℕ}
    (hpy : py < height) (hpx : px < width) :
    ∀ (ys : List ℕ), ys.Nodup → py ∈ ys → (∀ y2 ∈ ys, y2 < height) →
      ∀ (acc : Overworld.Grid),
      Overworld.wellFormed width height acc →
      (∀ y2 ∈ ys, ∀ x2, x2 < width →
        Overworld.gridAt acc y2 x2 = Overworld.gridAt g y2 x2) →
      Overworld.gridAt
        (ys.foldl (fun acc y => (List.range width).foldl
          (fun acc2 x => Overworld.smoothCell g width height acc2 y x) acc) acc) py px =
      (if 4 < Overworld.countTreeNeighbors (px : ℤ) (py : ℤ) (width : ℤ) (height : ℤ) g
       then Overworld.TileType.Trees
       else if Overworld.countTreeNeighbors (px : ℤ) (py : ℤ) (width : ℤ) (height : ℤ) g < 4
       then Overworld.TileType.Grass
       else Overworld.gridAt g py px) := by
  intro ys
  induction ys with
  | nil => intro _ hmem; cases hmem
  | cons y ys ih =>
    intro hnd hmem hys acc hwf hagree
    rw [List.foldl_cons]
    by_cases hyy : y = py
    · subst hyy
      have hnotin : y ∉ ys := (List.nodup_cons.mp hnd).1
      rw [gridFold_not_mem_row ys hnotin]
      exact rowFold_mem hpy hpx (List.range width) (List.nodup_range width)
        (List.mem_range.mpr hpx) acc hwf
        (hagree y (List.mem_cons_self y ys) px hpx)
    · have hmem2 : py ∈ ys := (List.mem_cons.mp hmem).resolve_left (fun h => hyy h.symm)
      apply ih (List.nodup_cons.mp hnd).2 hmem2
        (fun y2 hy2 => hys y2 (List.mem_cons_of_mem y hy2))
      · exact rowFold_wellFormed (hys y (List.mem_cons_self y ys))
          (List.range width) acc hwf
      · intro y2 hy2 x2 hx2
        have hy2y : y2 ≠ y := fun h =>
          (List.nodup_cons.mp hnd).1 (h ▸ hy2)
        rw [rowFold_ne_row hy2y]
        exact hagree y2 (List.mem_cons_of_mem y hy2) x2 hx2

/-- C1: one smoothing pass computes each in-bounds cell from the count of
solid (Trees) neighbors among its 8 surrounding positions in the frozen
previous-pass grid (out-of-bounds positions counting as solid): strictly
more than 4 makes the cell Trees, strictly fewer than 4 makes it Grass, and
exactly 4 keeps the previous-pass value; counts never see same-pass
updates because smoothCell reads them from the frozen grid. -/
theorem smoothPass_cell_rule (width height : ℕ) (g : Overworld.Grid) (x y : ℕ)
    (hwf : Overworld.wellFormed width height g) (hx : x < width) (hy : y < height) :
    Overworld.gridAt (Overworld.smoothPass width height g) y x =
      (if 4 < Overworld.countTreeNeighbors (x : ℤ) (y : ℤ) (width : ℤ) (height : ℤ) g
       then Overworld.TileType.Trees
       else if Overworld.countTreeNeighbors (x : ℤ) (y : ℤ) (width : ℤ) (height : ℤ) g < 4
       then Overworld.TileType.Grass
       else Overworld.gridAt g y x) := by
  unfold Overworld.smoothPass
  exact gridFold_spec hy hx (List.range height) (List.nodup_range height)
    (List.mem_range.mpr hy) (fun y2 hy2 => List.mem_range.mp hy2) g hwf
    (fun _ _ _ _ => rfl)

/-- Witness for C1 on the 3x3 all-Trees grid at cell (1,1), whose 8 solid
neighbors keep it Trees. -/
theorem smoothPass_cell_rule_witness :
    Overworld.gridAt
      (Overworld.smoothPass 3 3
        [[Overworld.TileType.Trees, Overworld.TileType.Trees, Overworld.TileType.Trees],
         [Overworld.TileType.Trees, Overworld.TileType.Trees, Overworld.TileType.Trees],
         [Overworld.TileType.Trees, Overworld.TileType.Trees, Overworld.TileType.Trees]]) 1 1 =
      (if 4 < Overworld.countTreeNeighbors 1 1 3 3
          [[Overworld.TileType.Trees, Overworld.TileType.Trees, Overworld.TileType.Trees],
           [Overworld.TileType.Trees, Overworld.TileType.Trees, Overworld.TileType.Trees],
           [Overworld.TileType.Trees, Overworld.TileType.Trees, Overworld.TileType.Trees]]
       then Overworld.TileType.Trees
       else if Overworld.countTreeNeighbors 1 1 3 3
          [[Overworld.TileType.Trees, Overworld.TileType.Trees, Overworld.TileType.Trees],
           [Overworld.TileType.Trees, Overworld.TileType.Trees, Overworld.TileType.Trees],
           [Overworld.TileType.Trees, Overworld.TileType.Trees, Overworld.TileType.Trees]] < 4
       then Overworld.TileType.Grass
       else Overworld.gridAt
          [[Overworld.TileType.Trees, Overworld.TileType.Trees, Overworld.TileType.Trees],
           [Overworld.TileType.Trees, Overworld.TileType.Trees, Overworld.TileType.Trees],
           [Overworld.TileType.Trees, Overworld.TileType.Trees, Overworld.TileType.Trees]] 1 1) :=
  smoothPass_cell_rule 3 3
    [[Overworld.TileType.Trees, Overworld.TileType.Trees, Overworld.TileType.Trees],
     [Overworld.TileType.Trees, Overworld.TileType.Trees, Overworld.TileType.Trees],
     [Overworld.TileType.Trees, Overworld.TileType.Trees, Overworld.TileType.Trees]] 1 1
    ⟨rfl, by
      intro row hrow
      simp only [List.mem_cons, List.not_mem_nil, or_false] at hrow
      rcases hrow with rfl | rfl | rfl
      · rfl
      · rfl
      · rfl⟩
    (by decide) (by decide)
